import Mathlib

/-!
Verification of the `filen/crypto.rs` module of rust-filen: a shallow
embedding of the versioned metadata cipher, the PBKDF2-based key
derivation wrappers, the credential-splitting logic and the legacy hash
chains, together with theorems settling the spec claims about them.

Bytes are modelled as `Nat` (with `< 256` side conditions where byte-ness
matters).  External cryptographic primitives (the hash functions, the
HMAC-SHA512 PRF and the AES-GCM / AES-CBC ciphers provided by the
`easy_hasher`, `crypto`, `aes_gcm` and `block_modes` crates) are
abstracted as fields of a `Crypto` structure; everything the repository
itself implements (framing, version sniffing, PBKDF2 block structure,
`evpkdf`, credential splitting, hash chains) is embedded concretely.
Rust panics (out-of-bounds slicing) are modelled as a distinct
`FilenResult.panic` outcome, separate from `anyhow` errors.
-/

/-- Error values: one constructor per `bail!` / `anyhow!` site of the source,
tagged with the source message.  `unsupportedVersion` carries the offending
version (an `i32` on the decrypt path, hence `Int`). -/
inductive CryptoError : Type where
  /-- "Unsupported metadata version: {}" (both encrypt and decrypt sites). -/
  | unsupportedVersion (version : Int)
  /-- "Invalid metadata version: {}" (leading 3 bytes do not parse as `i32`). -/
  | invalidMetadataVersion
  /-- "Given data should not be base64-encoded". -/
  | shouldNotBeBase64
  /-- "Encrypted data is too small to contain OpenSSL-compatible salt". -/
  | opensslTooSmall
  /-- "Encrypted data is too small to contain AES GCM IV". -/
  | aesGcmTooSmall
  /-- "Encrypted data is not contained within base64". -/
  | notBase64
  /-- "Prefixed AES GCM cannot decipher data" (used at both the encrypt and
  the decrypt call site in the source). -/
  | aesGcmDecipher
  /-- "Prefixed AES cannot decipher data". -/
  | aesCbcDecipher
  /-- "Derived key should be 64 bytes long". -/
  | derivedKeyLength
deriving DecidableEq, Repr

/-- Outcome of a Rust function that may panic (out-of-bounds slice) in
addition to returning a typed `anyhow::Result`. -/
inductive FilenResult (α : Type) : Type where
  | panic
  | err (e : CryptoError)
  | ok (a : α)
deriving DecidableEq, Repr

/-- Lift an `Except`-valued (non-panicking) computation into `FilenResult`. -/
def FilenResult.ofExcept {α : Type} : Except CryptoError α → FilenResult α
  | .ok a => .ok a
  | .error e => .err e

/-- Interface of the external cryptographic primitives consumed by
`filen/crypto.rs`.  Each field abstracts one function of a dependency crate:
the repository's own code is embedded concretely on top of these. -/
structure Crypto : Type where
  /-- `easy_hasher::sha512` (64-byte digest). -/
  sha512 : List Nat → List Nat
  /-- `easy_hasher::sha384`. -/
  sha384 : List Nat → List Nat
  /-- `easy_hasher::sha256`. -/
  sha256 : List Nat → List Nat
  /-- `easy_hasher::sha1`. -/
  sha1 : List Nat → List Nat
  /-- `easy_hasher::md5` / the `md5` crate digest (16 bytes), also the MD5
  used inside `evpkdf`. -/
  md5 : List Nat → List Nat
  /-- `easy_hasher::md4`. -/
  md4 : List Nat → List Nat
  /-- `easy_hasher::md2`. -/
  md2 : List Nat → List Nat
  /-- `crypto::hmac::Hmac::new(Sha512, key)` applied to a message:
  the PRF used by `pbkdf2` (64-byte output). -/
  hmacSha512 : List Nat → List Nat → List Nat
  /-- `aes_gcm::Aes256Gcm::encrypt key nonce plaintext`: returns
  ciphertext‖tag, or `none` on the (pathological) encrypt failure. -/
  gcmEncrypt : List Nat → List Nat → List Nat → Option (List Nat)
  /-- `aes_gcm::Aes256Gcm::decrypt key nonce ciphertext‖tag`: `none` models
  an authentication failure. -/
  gcmDecrypt : List Nat → List Nat → List Nat → Option (List Nat)
  /-- `block_modes` AES-256-CBC/PKCS7 `encrypt_vec key iv plaintext`. -/
  cbcEncrypt : List Nat → List Nat → List Nat → List Nat
  /-- `block_modes` AES-256-CBC/PKCS7 `decrypt_vec key iv ciphertext`:
  `none` models a padding/format failure. -/
  cbcDecrypt : List Nat → List Nat → List Nat → Option (List Nat)

/-- Source constant `OPENSSL_SALT_PREFIX = b"Salted__"`. -/
def OPENSSL_SALTED : List Nat := [83, 97, 108, 116, 101, 100, 95, 95]

/-- Source constant `OPENSSL_SALT_PREFIX_BASE64 = b"U2FsdGVk"`. -/
def OPENSSL_SALTED_BASE64 : List Nat := [85, 50, 70, 115, 100, 71, 86, 107]

/-- Source constant `OPENSSL_SALT_LENGTH = 8`. -/
def OPENSSL_SALT_LENGTH : Nat := 8

/-- Source constant `FILEN_VERSION_LENGTH = 3`. -/
def FILEN_VERSION_LENGTH : Nat := 3

/-- Source constant `AES_GCM_IV_LENGTH = 12`. -/
def AES_GCM_IV_LENGTH : Nat := 12

/-- ASCII code of the lowercase hex digit for `n < 16`. -/
def hexDigit (n : Nat) : Nat := if n < 10 then 48 + n else 87 + n

/-- Modelled from the spec: `utils::byte_slice_to_hex_string` (the `utils`
module is not part of the provided sources).  Standard lowercase hex
encoding of a byte slice, two hex characters per byte, returned here as the
ASCII bytes of the hex string.  Matches the spec's "hex encoding" and the
lowercase golden vectors in the source's tests. -/
def bytesToHex (bs : List Nat) : List Nat :=
  bs.flatMap (fun b => [hexDigit (b / 16), hexDigit (b % 16)])

/-! ### base64 (standard alphabet, with padding)

Embedding of the `base64` crate's default configuration as used by
`base64::encode` / `base64::decode` in the source. -/

/-- ASCII code of the standard-alphabet base64 character for `n < 64`. -/
def b64Char (n : Nat) : Nat :=
  if n < 26 then 65 + n
  else if n < 52 then 97 + (n - 26)
  else if n < 62 then 48 + (n - 52)
  else if n = 62 then 43
  else 47

/-- Inverse of `b64Char`: the 6-bit value of an ASCII character, `none` for
characters outside the standard alphabet (including the pad `=`). -/
def b64Index (c : Nat) : Option Nat :=
  if 65 ≤ c ∧ c ≤ 90 then some (c - 65)
  else if 97 ≤ c ∧ c ≤ 122 then some (c - 97 + 26)
  else if 48 ≤ c ∧ c ≤ 57 then some (c - 48 + 52)
  else if c = 43 then some 62
  else if c = 47 then some 63
  else none

/-- Standard base64 encoding of a byte list (ASCII output, `=`-padded). -/
def base64encode : List Nat → List Nat
  | [] => []
  | [a] => [b64Char (a / 4), b64Char (a % 4 * 16), 61, 61]
  | [a, b] => [b64Char (a / 4), b64Char (a % 4 * 16 + b / 16), b64Char (b % 16 * 4), 61]
  | a :: b :: c :: rest =>
    b64Char (a / 4) :: b64Char (a % 4 * 16 + b / 16) ::
      b64Char (b % 16 * 4 + c / 64) :: b64Char (c % 64) :: base64encode rest

/-- Standard base64 decoding: requires a multiple-of-4 length and padding
only in the final quartet, mirroring the `base64` crate's strict decode. -/
def base64decode : List Nat → Option (List Nat)
  | [] => some []
  | c1 :: c2 :: c3 :: c4 :: rest =>
    match b64Index c1, b64Index c2 with
    | some i1, some i2 =>
      if c3 = 61 then
        if c4 = 61 ∧ rest = [] then some [i1 * 4 + i2 / 16] else none
      else
        match b64Index c3 with
        | some i3 =>
          if c4 = 61 then
            if rest = [] then some [i1 * 4 + i2 / 16, i2 % 16 * 16 + i3 / 4] else none
          else
            match b64Index c4 with
            | some i4 =>
              match base64decode rest with
              | some tail =>
                some ((i1 * 4 + i2 / 16) :: (i2 % 16 * 16 + i3 / 4) :: (i3 % 4 * 64 + i4) :: tail)
              | none => none
            | none => none
        | none => none
    | _, _ => none
  | _ => none

/-! ### PBKDF2 (rust-crypto `crypto::pbkdf2::pbkdf2`)

The block structure of RFC 2898 as implemented by the `crypto` crate:
block `i` is `F(salt, c, i) = U₁ ⊕ … ⊕ U_c` with `U₁ = PRF(salt ‖ BE32(i))`
and `U_{j+1} = PRF(U_j)`; the output buffer is the concatenation of the
blocks truncated to the requested length. -/

/-- Big-endian 4-byte encoding of a block index (`write_u32_be`). -/
def be32 (i : Nat) : List Nat :=
  [i / 2 ^ 24 % 256, i / 2 ^ 16 % 256, i / 2 ^ 8 % 256, i % 256]

/-- Pointwise xor of two byte lists. -/
def xorBytes (a b : List Nat) : List Nat := List.zipWith Nat.xor a b

/-- Remaining `c - 1` PBKDF2 iterations: fold `u ← PRF u; block ← block ⊕ u`. -/
def pbkdf2FLoop (prf : List Nat → List Nat) : Nat → List Nat → List Nat → List Nat
  | 0, block, _ => block
  | k + 1, block, u =>
    let u2 := prf u
    pbkdf2FLoop prf k (xorBytes block u2) u2

/-- PBKDF2 block function `F(salt, c, i)` (`calculate_block` in rust-crypto). -/
def pbkdf2F (prf : List Nat → List Nat) (salt : List Nat) (c i : Nat) : List Nat :=
  let u1 := prf (salt ++ be32 i)
  pbkdf2FLoop prf (c - 1) u1 u1

/-- Concatenation of PBKDF2 blocks `F(salt, c, 1) ‖ … ‖ F(salt, c, n)`. -/
def pbkdf2Blocks (prf : List Nat → List Nat) (salt : List Nat) (c : Nat) : Nat → List Nat
  | 0 => []
  | n + 1 => pbkdf2Blocks prf salt c n ++ pbkdf2F prf salt c (n + 1)

/-- `crypto::pbkdf2::pbkdf2 mac salt c output`: fills a `dkLen`-byte buffer
with PBKDF2 blocks (`macOutputBytes` bytes each, the last one truncated). -/
def pbkdf2 (mac : List Nat → List Nat) (macOutputBytes : Nat) (salt : List Nat)
    (c : Nat) (dkLen : Nat) : List Nat :=
  (pbkdf2Blocks mac salt c ((dkLen + macOutputBytes - 1) / macOutputBytes)).take dkLen

/-- Source `derive_key_from_password_generic`: substitutes 200 000 for a
non-positive (`u32`, hence zero) iteration count, then runs `pbkdf2`.  The
`mac` argument is the HMAC with the password already keyed in; the output
buffer length of the Rust caller is passed as `dkLen`. -/
def derive_key_from_password_generic (salt : List Nat) (iterations : Nat)
    (mac : List Nat → List Nat) (macOutputBytes dkLen : Nat) : List Nat :=
  let iterations_or_default := if iterations ≤ 0 then 200000 else iterations
  pbkdf2 mac macOutputBytes salt iterations_or_default dkLen

/-- Source `derive_key_from_password_512`: PBKDF2-HMAC-SHA512, 64-byte output. -/
def derive_key_from_password_512 (C : Crypto) (password salt : List Nat)
    (iterations : Nat) : List Nat :=
  derive_key_from_password_generic salt iterations (C.hmacSha512 password) 64 64

/-- Source `derive_key_from_password_256`: PBKDF2-HMAC-SHA512, 32-byte output. -/
def derive_key_from_password_256 (C : Crypto) (password salt : List Nat)
    (iterations : Nat) : List Nat :=
  derive_key_from_password_generic salt iterations (C.hmacSha512 password) 64 32

/-! ### evpkdf (OpenSSL EVP_BytesToKey, implemented in the source) -/

/-- `k`-fold application of the hash (`block = md5(block)` loop). -/
def iterateHash (hash : List Nat → List Nat) : Nat → List Nat → List Nat
  | 0, block => block
  | k + 1, block => iterateHash hash k (hash block)

/-- The `while derived_key.len() < output.len()` loop of `evpkdf`, with fuel
(each pass appends one MD5 block; the fuel is ample for a 16-byte digest). -/
def evpkdfGo (hash : List Nat → List Nat) (pass salt : List Nat) (count outLen : Nat) :
    Nat → List Nat → List Nat → List Nat
  | 0, _, derived => derived
  | fuel + 1, block, derived =>
    if derived.length < outLen then
      let block1 := hash (block ++ pass ++ salt)
      let block2 := if count > 1 then iterateHash hash (count - 1) block1 else block1
      evpkdfGo hash pass salt count outLen fuel block2 (derived ++ block2)
    else derived

/-- Source `evpkdf`: iterative-MD5 EVP_BytesToKey, producing `outLen` bytes. -/
def evpkdf (hash : List Nat → List Nat) (pass salt : List Nat) (count outLen : Nat) :
    List Nat :=
  (evpkdfGo hash pass salt count outLen (outLen + 1) [] []).take outLen

/-- Source `generate_aes_key_and_iv`: EVP_BytesToKey split into (key, iv). -/
def generate_aes_key_and_iv (C : Crypto) (key_length iv_length iterations : Nat)
    (maybe_salt : Option (List Nat)) (password : List Nat) : List Nat × List Nat :=
  let salt := maybe_salt.getD []
  let output := evpkdf C.md5 password salt iterations (key_length + iv_length)
  (output.take key_length, output.drop key_length)

/-! ### legacy hash chains -/

/-- Source `hash_fn`: `sha1(sha512(value).to_hex_string()).to_hex_string()`.
Values are the UTF-8 bytes of the strings involved. -/
def hash_fn (C : Crypto) (value : List Nat) : List Nat :=
  bytesToHex (C.sha1 (bytesToHex (C.sha512 value)))

/-- Source `hash_password`: concatenation of the SHA chain
`sha512(sha384(sha256(sha1 pw hex) hex) hex) hex` and the MD chain
`sha512(md5(md4(md2 pw hex) hex) hex) hex` (string concatenation of the two
hex strings, i.e. concatenation of their ASCII bytes). -/
def hash_password (C : Crypto) (password : List Nat) : List Nat :=
  let sha512_part_1 :=
    bytesToHex (C.sha512 (bytesToHex (C.sha384 (bytesToHex
      (C.sha256 (bytesToHex (C.sha1 password)))))))
  let sha512_part_2 :=
    bytesToHex (C.sha512 (bytesToHex (C.md5 (bytesToHex
      (C.md4 (bytesToHex (C.md2 password)))))))
  sha512_part_1 ++ sha512_part_2

/-! ### credential derivation -/

/-- Source `SentPasswordWithMasterKey`: the two secret halves of a login
credential (raw bytes inside `SecStr`s). -/
structure SentPasswordWithMasterKey : Type where
  m_key : List Nat
  sent_password : List Nat
deriving DecidableEq, Repr

namespace SentPasswordWithMasterKey

/-- Source `SentPasswordWithMasterKey::from_derived_key`: requires a 64-byte
derived key, splits it in half, hashes the hex of the second half. -/
def from_derived_key (C : Crypto) (derived_key : List Nat) :
    Except CryptoError SentPasswordWithMasterKey :=
  if derived_key.length ≠ 64 then .error .derivedKeyLength
  else
    .ok { m_key := derived_key.take (derived_key.length / 2)
          sent_password :=
            C.sha512 (bytesToHex (derived_key.drop (derived_key.length / 2))) }

/-- Source `SentPasswordWithMasterKey::from_password_and_salt`. -/
def from_password_and_salt (C : Crypto) (password salt : List Nat) :
    Except CryptoError SentPasswordWithMasterKey :=
  from_derived_key C (derive_key_from_password_512 C password salt 200000)

end SentPasswordWithMasterKey

/-! ### versioned metadata cipher -/

/-- Source `encrypt_aes_openssl`.  `randomSalt` stands for the 8 bytes drawn
from `rand::thread_rng()` when no usable caller salt is supplied. -/
def encrypt_aes_openssl (C : Crypto) (randomSalt : List Nat)
    (data password : List Nat) (maybe_salt : Option (List Nat)) : List Nat :=
  let salt :=
    match maybe_salt with
    | some user_salt => if user_salt.length = OPENSSL_SALT_LENGTH then user_salt else randomSalt
    | none => randomSalt
  let kv := generate_aes_key_and_iv C 32 16 1 (some salt) password
  let encrypted := C.cbcEncrypt kv.1 kv.2 data
  OPENSSL_SALTED ++ salt ++ encrypted

/-- Source `decrypt_aes_openssl`. -/
def decrypt_aes_openssl (C : Crypto) (data password : List Nat) :
    Except CryptoError (List Nat) :=
  if data.length < OPENSSL_SALTED.length + OPENSSL_SALT_LENGTH then
    .error .opensslTooSmall
  else
    let salt := (data.take (OPENSSL_SALTED.length + OPENSSL_SALT_LENGTH)).drop OPENSSL_SALTED.length
    let message := data.drop (OPENSSL_SALTED.length + OPENSSL_SALT_LENGTH)
    let kv := generate_aes_key_and_iv C 32 16 1 (some salt) password
    match C.cbcDecrypt kv.1 kv.2 message with
    | some decrypted => .ok decrypted
    | none => .error .aesCbcDecipher

/-- Source `encrypt_aes_gcm`.  `iv` stands for the 12-character alphanumeric
ASCII string drawn from `utils::random_alpha_string(AES_GCM_IV_LENGTH)`
(that helper is outside the provided sources); the output is
`iv ‖ base64(ciphertext‖tag)` as bytes of the concatenated string. -/
def encrypt_aes_gcm (C : Crypto) (iv : List Nat) (data password : List Nat) :
    Except CryptoError (List Nat) :=
  let key := derive_key_from_password_256 C password password 1
  match C.gcmEncrypt key iv data with
  | some encrypted => .ok (iv ++ base64encode encrypted)
  | none => .error .aesGcmDecipher

/-- Source `decrypt_aes_gcm`. -/
def decrypt_aes_gcm (C : Crypto) (data password : List Nat) :
    Except CryptoError (List Nat) :=
  if data.length ≤ AES_GCM_IV_LENGTH then .error .aesGcmTooSmall
  else
    let iv := data.take AES_GCM_IV_LENGTH
    let encrypted_base64 := data.drop AES_GCM_IV_LENGTH
    match base64decode encrypted_base64 with
    | none => .error .notBase64
    | some encrypted =>
      let key := derive_key_from_password_256 C password password 1
      match C.gcmDecrypt key iv encrypted with
      | some decrypted => .ok decrypted
      | none => .error .aesGcmDecipher

/-- ASCII decimal digits of a natural number (fuel-based long division). -/
def natDigitsAux : Nat → Nat → List Nat
  | 0, _ => []
  | fuel + 1, n => if n < 10 then [48 + n] else natDigitsAux fuel (n / 10) ++ [48 + n % 10]

/-- ASCII decimal digits of a natural number. -/
def natDigits (n : Nat) : List Nat := natDigitsAux (n + 1) n

/-- The `format!("{:0>3}", metadata_version)` version mark: decimal digits
left-padded with `'0'` to at least 3 characters. -/
def versionMark (v : Nat) : List Nat :=
  List.replicate (FILEN_VERSION_LENGTH - (natDigits v).length) 48 ++ natDigits v

/-- Source `encrypt_metadata`.  `rand` stands for the random material drawn
inside the call: the 8-byte salt (version 1) or the 12-byte ASCII nonce
(version 2). -/
def encrypt_metadata (C : Crypto) (rand : List Nat) (data hashed_m_key : List Nat)
    (metadata_version : Nat) : Except CryptoError (List Nat) :=
  if metadata_version = 1 then
    .ok (encrypt_aes_openssl C rand data hashed_m_key none)
  else if metadata_version = 2 then
    match encrypt_aes_gcm C rand data hashed_m_key with
    | .ok encrypted => .ok (versionMark metadata_version ++ encrypted)
    | .error e => .error e
  else .error (.unsupportedVersion (metadata_version : Int))

/-- ASCII digit test for `parseI32`. -/
def isAsciiDigit (d : Nat) : Bool := decide (48 ≤ d ∧ d ≤ 57)

/-- Decimal value of a digit list. -/
def decimalValue (ds : List Nat) : Nat := ds.foldl (fun acc d => acc * 10 + (d - 48)) 0

/-- Rust `str::parse::<i32>` on the UTF-8-lossy rendering of a byte slice:
an optional single `+`/`-` sign followed by at least one ASCII digit and
nothing else.  (Overflow cannot occur on the 3-byte inputs in use; invalid
UTF-8 turns into replacement characters, which fail the digit test just as
the raw bytes do.) -/
def parseI32 (bs : List Nat) : Option Int :=
  match bs with
  | [] => none
  | b :: rest =>
    let signDigits : Bool × List Nat :=
      if b = 45 then (true, rest)
      else if b = 43 then (false, rest)
      else (false, bs)
    if signDigits.2 = [] then none
    else if signDigits.2.all isAsciiDigit then
      some (if signDigits.1 then -(decimalValue signDigits.2 : Int) else (decimalValue signDigits.2 : Int))
    else none

/-- Source `read_metadata_version` (nested in `decrypt_metadata`).  The two
slices `&data[..OPENSSL_SALT_PREFIX.len()]` and `&data[..FILEN_VERSION_LENGTH]`
are taken unconditionally, so any input shorter than 8 bytes panics. -/
def read_metadata_version (data : List Nat) : FilenResult Int :=
  if data.length < OPENSSL_SALTED.length then .panic
  else if data.take OPENSSL_SALTED.length = OPENSSL_SALTED then .ok 1
  else if data.take OPENSSL_SALTED.length = OPENSSL_SALTED_BASE64 then
    .err .shouldNotBeBase64
  else
    match parseI32 (data.take FILEN_VERSION_LENGTH) with
    | some v => .ok v
    | none => .err .invalidMetadataVersion

/-- Source `decrypt_metadata`: version sniffing then dispatch. -/
def decrypt_metadata (C : Crypto) (data hashed_m_key : List Nat) :
    FilenResult (List Nat) :=
  match read_metadata_version data with
  | .panic => .panic
  | .err e => .err e
  | .ok metadata_version =>
    if metadata_version = 1 then
      FilenResult.ofExcept (decrypt_aes_openssl C data hashed_m_key)
    else if metadata_version = 2 then
      FilenResult.ofExcept (decrypt_aes_gcm C (data.drop FILEN_VERSION_LENGTH) hashed_m_key)
    else .err (.unsupportedVersion metadata_version)

/-- Toy instantiation of the primitive interface, used to exhibit concrete
witnesses for the universally quantified theorems below: each hash returns
fixed-length dummy output and the two ciphers satisfy their
decrypt-of-encrypt contracts by construction. -/
def toyCrypto : Crypto where
  sha512 := fun _ => List.replicate 64 3
  sha384 := fun _ => List.replicate 48 3
  sha256 := fun _ => List.replicate 32 3
  sha1 := fun _ => List.replicate 20 3
  md5 := fun _ => List.replicate 16 3
  md4 := fun _ => List.replicate 16 3
  md2 := fun _ => List.replicate 16 3
  hmacSha512 := fun _ _ => List.replicate 64 0
  gcmEncrypt := fun _ _ data => some (data ++ List.replicate 16 1)
  gcmDecrypt := fun _ _ c => if c.length < 16 then none else some (c.take (c.length - 16))
  cbcEncrypt := fun _ _ data => data ++ [7]
  cbcDecrypt := fun _ _ c => if c = [] then none else some c.dropLast

/-! ### generic lemmas about the embedded primitives -/

theorem OPENSSL_SALTED_len : OPENSSL_SALTED.length = 8 := rfl

theorem b64Index_b64Char : ∀ x < 64, b64Index (b64Char x) = some x := by decide

theorem b64Char_ne_pad : ∀ x < 64, b64Char x ≠ 61 := by decide

theorem base64encode_ne_nil (x : Nat) (xs : List Nat) : base64encode (x :: xs) ≠ [] := by
  match xs with
  | [] => simp [base64encode]
  | [b] => simp [base64encode]
  | b :: c :: rest => simp [base64encode]

/-- The embedded base64 decoder inverts the embedded encoder on byte lists. -/
theorem base64_decode_encode : ∀ bs : List Nat, (∀ b ∈ bs, b < 256) →
    base64decode (base64encode bs) = some bs
  | [], _ => rfl
  | [a], h => by
    have ha : a < 256 := h a (by simp)
    simp only [base64encode, base64decode]
    rw [b64Index_b64Char _ (by omega), b64Index_b64Char _ (by omega)]
    simp only [Option.some.injEq, List.cons.injEq, and_true, if_true, reduceIte]
    simp
    omega
  | [a, b], h => by
    have ha : a < 256 := h a (by simp)
    have hb : b < 256 := h b (by simp)
    simp only [base64encode, base64decode]
    rw [b64Index_b64Char _ (by omega), b64Index_b64Char _ (by omega)]
    dsimp only
    rw [if_neg (b64Char_ne_pad _ (by omega)), b64Index_b64Char _ (by omega)]
    dsimp only
    simp only [Option.some.injEq, List.cons.injEq, and_true, if_true, reduceIte]
    refine ⟨by omega, by omega⟩
  | [a, b, c], h => by
    have ha : a < 256 := h a (by simp)
    have hb : b < 256 := h b (by simp)
    have hc : c < 256 := h c (by simp)
    simp only [base64encode, base64decode]
    rw [b64Index_b64Char _ (by omega), b64Index_b64Char _ (by omega)]
    dsimp only
    rw [if_neg (b64Char_ne_pad _ (by omega)), b64Index_b64Char _ (by omega)]
    dsimp only
    rw [if_neg (b64Char_ne_pad _ (by omega)), b64Index_b64Char _ (by omega)]
    dsimp only
    simp only [Option.some.injEq, List.cons.injEq, and_true]
    refine ⟨by omega, by omega, by omega⟩
  | a :: b :: c :: d :: rest, h => by
    have ha : a < 256 := h a (by simp)
    have hb : b < 256 := h b (by simp)
    have hc : c < 256 := h c (by simp)
    have ih := base64_decode_encode (d :: rest) (fun x hx => h x (by simp [hx]))
    simp only [base64encode, base64decode]
    rw [b64Index_b64Char _ (by omega), b64Index_b64Char _ (by omega)]
    dsimp only
    rw [if_neg (b64Char_ne_pad _ (by omega)), b64Index_b64Char _ (by omega)]
    dsimp only
    rw [if_neg (b64Char_ne_pad _ (by omega)), b64Index_b64Char _ (by omega)]
    dsimp only
    rw [ih]
    simp only [Option.some.injEq, List.cons.injEq]
    exact ⟨by omega, by omega, by omega, trivial⟩

theorem pbkdf2FLoop_length (prf : List Nat → List Nat)
    (hprf : ∀ x, (prf x).length = 64) :
    ∀ (k : Nat) (block u : List Nat), block.length = 64 →
      (pbkdf2FLoop prf k block u).length = 64 := by
  intro k
  induction k with
  | zero => intro block u hb; simpa [pbkdf2FLoop]
  | succ n ih =>
    intro block u hb
    simp only [pbkdf2FLoop]
    exact ih _ _ (by simp [xorBytes, hb, hprf])

theorem pbkdf2F_length (prf : List Nat → List Nat)
    (hprf : ∀ x, (prf x).length = 64) (salt : List Nat) (c i : Nat) :
    (pbkdf2F prf salt c i).length = 64 := by
  simp only [pbkdf2F]
  exact pbkdf2FLoop_length prf hprf _ _ _ (hprf _)

theorem pbkdf2_length_64 (prf : List Nat → List Nat)
    (hprf : ∀ x, (prf x).length = 64) (salt : List Nat) (c : Nat) :
    (pbkdf2 prf 64 salt c 64).length = 64 := by
  simp only [pbkdf2]
  norm_num
  simp [pbkdf2Blocks, pbkdf2F_length prf hprf]

theorem derive512_eq_pbkdf2 (C : Crypto) (password salt : List Nat) :
    derive_key_from_password_512 C password salt 200000 =
      pbkdf2 (C.hmacSha512 password) 64 salt 200000 64 := by
  simp [derive_key_from_password_512, derive_key_from_password_generic]

/-- Shared helper: the full computation of `from_password_and_salt`, given
that the HMAC-SHA512 primitive produces 64-byte output. -/
theorem from_password_and_salt_eq (C : Crypto) (password salt : List Nat)
    (hmacLen : ∀ k m, (C.hmacSha512 k m).length = 64) :
    SentPasswordWithMasterKey.from_password_and_salt C password salt =
      .ok { m_key := (pbkdf2 (C.hmacSha512 password) 64 salt 200000 64).take 32
            sent_password := C.sha512 (bytesToHex
              ((pbkdf2 (C.hmacSha512 password) 64 salt 200000 64).drop 32)) } := by
  have hdk : (pbkdf2 (C.hmacSha512 password) 64 salt 200000 64).length = 64 :=
    pbkdf2_length_64 _ (fun x => hmacLen password x) _ _
  simp [SentPasswordWithMasterKey.from_password_and_salt,
    SentPasswordWithMasterKey.from_derived_key, derive512_eq_pbkdf2, hdk]

/-! ### claim theorems -/

/-- Claim C1: for every plaintext `p` and key `k`, decrypting the blob
produced by `encrypt_metadata` at version 2 returns `p`, for every choice of
the random 12-byte nonce, and likewise at version 1 for every choice of the
random 8-byte salt — given that the external AES-GCM and AES-CBC ciphers
invert their own encryptions on these inputs (their documented contract) and
that AES-GCM encryption succeeded with a nonempty byte-valued output. -/
theorem metadata_encrypt_decrypt_roundtrip (C : Crypto) (p k nonce salt ct : List Nat)
    (hnonce : nonce.length = 12) (hsalt : salt.length = 8)
    (henc : C.gcmEncrypt (derive_key_from_password_256 C k k 1) nonce p = some ct)
    (hct0 : ct ≠ []) (hct : ∀ b ∈ ct, b < 256)
    (hdec : C.gcmDecrypt (derive_key_from_password_256 C k k 1) nonce ct = some p)
    (hcbc : C.cbcDecrypt (generate_aes_key_and_iv C 32 16 1 (some salt) k).1
        (generate_aes_key_and_iv C 32 16 1 (some salt) k).2
        (C.cbcEncrypt (generate_aes_key_and_iv C 32 16 1 (some salt) k).1
          (generate_aes_key_and_iv C 32 16 1 (some salt) k).2 p) = some p) :
    (∀ blob, encrypt_metadata C nonce p k 2 = .ok blob →
      decrypt_metadata C blob k = .ok p)
    ∧ (∀ blob, encrypt_metadata C salt p k 1 = .ok blob →
      decrypt_metadata C blob k = .ok p) := by
  constructor
  · intro blob hb
    simp only [encrypt_metadata, encrypt_aes_gcm, henc,
      show versionMark 2 = [48, 48, 50] from rfl] at hb
    norm_num at hb
    subst hb
    have hbne : base64encode ct ≠ [] := by
      cases ct with
      | nil => exact absurd rfl hct0
      | cons x xs => exact base64encode_ne_nil x xs
    have hblen : 1 ≤ (base64encode ct).length := List.length_pos.mpr hbne
    have c1 : ¬ ((48 :: 48 :: 50 :: (nonce ++ base64encode ct)).length <
        OPENSSL_SALTED.length) := by
      simp only [List.length_cons, List.length_append, hnonce, OPENSSL_SALTED_len]
      omega
    have c2 : (48 :: 48 :: 50 :: (nonce ++ base64encode ct)).take OPENSSL_SALTED.length
        ≠ OPENSSL_SALTED := by simp [OPENSSL_SALTED]
    have c3 : (48 :: 48 :: 50 :: (nonce ++ base64encode ct)).take OPENSSL_SALTED.length
        ≠ OPENSSL_SALTED_BASE64 := by simp [OPENSSL_SALTED, OPENSSL_SALTED_BASE64]
    have ht : (48 :: 48 :: 50 :: (nonce ++ base64encode ct)).take FILEN_VERSION_LENGTH
        = [48, 48, 50] := by simp [FILEN_VERSION_LENGTH]
    have hr : read_metadata_version (48 :: 48 :: 50 :: (nonce ++ base64encode ct))
        = .ok 2 := by
      simp only [read_metadata_version]
      rw [if_neg c1, if_neg c2, if_neg c3, ht]
      rfl
    simp only [decrypt_metadata, hr]
    norm_num [FILEN_VERSION_LENGTH]
    simp only [decrypt_aes_gcm, AES_GCM_IV_LENGTH]
    have d1 : ¬ ((nonce ++ base64encode ct).length ≤ 12) := by
      simp only [List.length_append, hnonce]; omega
    have d2 : (nonce ++ base64encode ct).take 12 = nonce := by
      rw [← hnonce]; exact List.take_left nonce _
    have d3 : (nonce ++ base64encode ct).drop 12 = base64encode ct := by
      rw [← hnonce]; exact List.drop_left nonce _
    rw [if_neg d1, d2, d3, base64_decode_encode ct hct]
    dsimp only
    rw [hdec]
    rfl
  · intro blob hb
    simp only [encrypt_metadata, encrypt_aes_openssl] at hb
    norm_num at hb
    subst hb
    have c2 : (OPENSSL_SALTED ++ (salt ++
          C.cbcEncrypt (generate_aes_key_and_iv C 32 16 1 (some salt) k).1
            (generate_aes_key_and_iv C 32 16 1 (some salt) k).2 p)).take
          OPENSSL_SALTED.length = OPENSSL_SALTED :=
      List.take_left _ _
    have c1 : ¬ ((OPENSSL_SALTED ++ (salt ++
          C.cbcEncrypt (generate_aes_key_and_iv C 32 16 1 (some salt) k).1
            (generate_aes_key_and_iv C 32 16 1 (some salt) k).2 p)).length <
          OPENSSL_SALTED.length) := by
      simp only [List.length_append]; omega
    have hr : read_metadata_version (OPENSSL_SALTED ++ (salt ++
          C.cbcEncrypt (generate_aes_key_and_iv C 32 16 1 (some salt) k).1
            (generate_aes_key_and_iv C 32 16 1 (some salt) k).2 p)) = .ok 1 := by
      simp only [read_metadata_version]
      rw [if_neg c1, if_pos c2]
    simp only [decrypt_metadata, hr]
    norm_num
    simp only [decrypt_aes_openssl]
    have e1 : ¬ ((OPENSSL_SALTED ++ (salt ++
          C.cbcEncrypt (generate_aes_key_and_iv C 32 16 1 (some salt) k).1
            (generate_aes_key_and_iv C 32 16 1 (some salt) k).2 p)).length <
          OPENSSL_SALTED.length + OPENSSL_SALT_LENGTH) := by
      simp only [List.length_append, OPENSSL_SALTED_len, OPENSSL_SALT_LENGTH, hsalt]
      omega
    have hlen8 : OPENSSL_SALT_LENGTH = salt.length := by rw [hsalt]; rfl
    rw [if_neg e1, List.take_append OPENSSL_SALT_LENGTH, List.drop_append OPENSSL_SALT_LENGTH,
      List.drop_left, hlen8, List.take_left, List.drop_left, hcbc]
    rfl

/-- Witness for C1: both round trips evaluated at concrete inputs under the
toy primitives. -/
theorem metadata_encrypt_decrypt_roundtrip_witness :
    decrypt_metadata toyCrypto (48 :: 48 :: 50 :: (List.replicate 12 97 ++
      base64encode ([104, 105] ++ List.replicate 16 1))) [107] = .ok [104, 105]
    ∧ decrypt_metadata toyCrypto (OPENSSL_SALTED ++ (List.replicate 8 98 ++
      toyCrypto.cbcEncrypt
        (generate_aes_key_and_iv toyCrypto 32 16 1 (some (List.replicate 8 98)) [107]).1
        (generate_aes_key_and_iv toyCrypto 32 16 1 (some (List.replicate 8 98)) [107]).2
        [104, 105])) [107] = .ok [104, 105] := by
  have h := metadata_encrypt_decrypt_roundtrip toyCrypto [104, 105] [107]
    (List.replicate 12 97) (List.replicate 8 98) ([104, 105] ++ List.replicate 16 1)
    (by decide) (by decide) (by decide) (by decide) (by decide) (by decide) (by decide)
  exact ⟨h.1 _ (by rfl), h.2 _ (by rfl)⟩

/-- Claim C2 (code bug): `decrypt_metadata` slices `&data[..8]` without a
length check, so every blob shorter than 8 bytes panics instead of returning
the typed error the spec promises; the version-2 body-too-short case does
return a typed error. -/
theorem decrypt_metadata_short_input_behaviour :
    decrypt_metadata toyCrypto [] [1] = .panic
    ∧ decrypt_metadata toyCrypto [48, 48, 50, 97, 97, 97, 97] [1] = .panic
    ∧ decrypt_metadata toyCrypto (48 :: 48 :: 50 :: List.replicate 12 97) [1]
      = .err .aesGcmTooSmall := by
  refine ⟨by decide, by decide, by decide⟩

/-- Counterexample to claim C3 as stated: the 3-byte blob `"003"` has
leading bytes parsing to the unhandled integer 3, yet `decrypt_metadata`
panics on the 8-byte version sniffing slice instead of failing with
`UnsupportedVersion`. -/
theorem unsupported_version_short_blob_counterexample :
    parseI32 [48, 48, 51] = some 3
    ∧ decrypt_metadata toyCrypto [48, 48, 51] [1] = .panic
    ∧ ¬ decrypt_metadata toyCrypto [48, 48, 51] [1] = .err (.unsupportedVersion 3) := by
  refine ⟨by decide, by decide, by decide⟩

/-- Claim C3 (amended): `encrypt_metadata` with any version other than 1 or
2 fails with `UnsupportedVersion` and produces no blob; and
`decrypt_metadata` on any blob of length at least 8 whose leading 3 bytes
parse to a decimal integer other than 1 or 2 fails with
`UnsupportedVersion` (shorter blobs panic on the version-sniffing slice
before the version is examined). -/
theorem unsupported_version_fails (C : Crypto) :
    (∀ (version : Nat) (rand data key : List Nat), version ≠ 1 → version ≠ 2 →
      encrypt_metadata C rand data key version = .error (.unsupportedVersion (version : Int)))
    ∧ (∀ (data key : List Nat) (v : Int), 8 ≤ data.length →
        parseI32 (data.take 3) = some v → v ≠ 1 → v ≠ 2 →
        decrypt_metadata C data key = .err (.unsupportedVersion v)) := by
  constructor
  · intro version rand data key h1 h2
    simp [encrypt_metadata, h1, h2]
  · intro data key v hlen hp h1 h2
    have hs : data.take 8 ≠ OPENSSL_SALTED := by
      intro heq
      have h3 : data.take 3 = [83, 97, 108] := by
        have h4 := congrArg (List.take 3) heq
        simpa [List.take_take, OPENSSL_SALTED] using h4
      rw [h3] at hp
      simp [show parseI32 [83, 97, 108] = none from by decide] at hp
    have hs2 : data.take 8 ≠ OPENSSL_SALTED_BASE64 := by
      intro heq
      have h3 : data.take 3 = [85, 50, 70] := by
        have h4 := congrArg (List.take 3) heq
        simpa [List.take_take, OPENSSL_SALTED_BASE64] using h4
      rw [h3] at hp
      simp [show parseI32 [85, 50, 70] = none from by decide] at hp
    have hread : read_metadata_version data = .ok v := by
      simp only [read_metadata_version, OPENSSL_SALTED_len, FILEN_VERSION_LENGTH]
      rw [if_neg (by omega), if_neg hs, if_neg hs2, hp]
    simp only [decrypt_metadata, hread]
    rw [if_neg h1, if_neg h2]

/-- Witness for C3: concrete unsupported versions on both paths. -/
theorem unsupported_version_fails_witness :
    encrypt_metadata toyCrypto [] [1, 2] [3] 5 = .error (.unsupportedVersion 5)
    ∧ decrypt_metadata toyCrypto [48, 48, 51, 65, 65, 65, 65, 65] [3]
      = .err (.unsupportedVersion 3) :=
  ⟨(unsupported_version_fails toyCrypto).1 5 [] [1, 2] [3] (by decide) (by decide),
    (unsupported_version_fails toyCrypto).2 [48, 48, 51, 65, 65, 65, 65, 65] [3] 3
      (by decide) (by decide) (by decide) (by decide)⟩

/-- Claim C4: the version-1 blob is exactly `"Salted__" ‖ salt(8) ‖
AES-256-CBC/PKCS7 ciphertext` and the version-2 blob is exactly
`"002" ‖ nonce(12 ASCII bytes) ‖ base64(ciphertext‖tag)`, where the GCM key
is the single-iteration 32-byte derivation keyed by the metadata key as both
password and salt. -/
theorem encrypt_metadata_layout (C : Crypto) (salt nonce data key ct : List Nat)
    (hsalt : salt.length = 8) (hnonce : nonce.length = 12)
    (henc : C.gcmEncrypt (derive_key_from_password_256 C key key 1) nonce data = some ct) :
    encrypt_metadata C salt data key 1 =
      .ok (OPENSSL_SALTED ++ salt ++
        C.cbcEncrypt (generate_aes_key_and_iv C 32 16 1 (some salt) key).1
          (generate_aes_key_and_iv C 32 16 1 (some salt) key).2 data)
    ∧ encrypt_metadata C nonce data key 2 =
      .ok ([48, 48, 50] ++ nonce ++ base64encode ct) := by
  constructor
  · simp [encrypt_metadata, encrypt_aes_openssl]
  · simp [encrypt_metadata, encrypt_aes_gcm, henc, show versionMark 2 = [48, 48, 50] from rfl]

/-- Witness for C4: concrete layouts under the toy primitives. -/
theorem encrypt_metadata_layout_witness :
    encrypt_metadata toyCrypto (List.replicate 8 98) [104, 105] [107] 1 =
      .ok (OPENSSL_SALTED ++ List.replicate 8 98 ++
        toyCrypto.cbcEncrypt
          (generate_aes_key_and_iv toyCrypto 32 16 1 (some (List.replicate 8 98)) [107]).1
          (generate_aes_key_and_iv toyCrypto 32 16 1 (some (List.replicate 8 98)) [107]).2
          [104, 105])
    ∧ encrypt_metadata toyCrypto (List.replicate 12 97) [104, 105] [107] 2 =
      .ok ([48, 48, 50] ++ List.replicate 12 97 ++
        base64encode ([104, 105] ++ List.replicate 16 1)) :=
  encrypt_metadata_layout toyCrypto (List.replicate 8 98) (List.replicate 12 97)
    [104, 105] [107] ([104, 105] ++ List.replicate 16 1) (by decide) (by decide) (by decide)

/-- Claim C5: `from_password_and_salt` runs PBKDF2-HMAC-SHA512 with 200 000
iterations and 64-byte output, takes the master key to be the first 32 bytes
and the sent password to be the SHA-512 digest of the hex encoding of the
last 32 bytes — given the 64-byte output contract of the HMAC primitive. -/
theorem from_password_and_salt_spec (C : Crypto) (password salt : List Nat)
    (hmacLen : ∀ k m, (C.hmacSha512 k m).length = 64) :
    SentPasswordWithMasterKey.from_password_and_salt C password salt =
      .ok { m_key := (pbkdf2 (C.hmacSha512 password) 64 salt 200000 64).take 32
            sent_password := C.sha512 (bytesToHex
              ((pbkdf2 (C.hmacSha512 password) 64 salt 200000 64).drop 32)) } :=
  from_password_and_salt_eq C password salt hmacLen

/-- Witness for C5: the credential pair at a concrete password and salt. -/
theorem from_password_and_salt_spec_witness :
    SentPasswordWithMasterKey.from_password_and_salt toyCrypto [1] [2] =
      .ok { m_key := (pbkdf2 (toyCrypto.hmacSha512 [1]) 64 [2] 200000 64).take 32
            sent_password := toyCrypto.sha512 (bytesToHex
              ((pbkdf2 (toyCrypto.hmacSha512 [1]) 64 [2] 200000 64).drop 32)) } :=
  from_password_and_salt_spec toyCrypto [1] [2] (fun _ _ => rfl)

/-- Claim C6: `from_derived_key` fails with the key-length error exactly
when the derived key is not 64 bytes long, and `from_password_and_salt`
never returns that error because its internal PBKDF2 derivation has a fixed
64-byte output (given the HMAC primitive's 64-byte output contract). -/
theorem from_derived_key_length_guard (C : Crypto)
    (hmacLen : ∀ k m, (C.hmacSha512 k m).length = 64) :
    (∀ derived_key : List Nat,
      SentPasswordWithMasterKey.from_derived_key C derived_key = .error .derivedKeyLength
        ↔ derived_key.length ≠ 64)
    ∧ ∀ password salt : List Nat, ∃ creds,
        SentPasswordWithMasterKey.from_password_and_salt C password salt = .ok creds := by
  constructor
  · intro derived_key
    by_cases h : derived_key.length = 64 <;>
      simp [SentPasswordWithMasterKey.from_derived_key, h]
  · intro password salt
    exact ⟨_, from_password_and_salt_eq C password salt hmacLen⟩

/-- Witness for C6: a 63-byte derived key is rejected while the
password-and-salt path returns an `ok` credential pair. -/
theorem from_derived_key_length_guard_witness :
    SentPasswordWithMasterKey.from_derived_key toyCrypto (List.replicate 63 0)
      = .error .derivedKeyLength
    ∧ SentPasswordWithMasterKey.from_password_and_salt toyCrypto [5] [6]
      ≠ .error .derivedKeyLength := by
  constructor
  · exact ((from_derived_key_length_guard toyCrypto (fun _ _ => rfl)).1 _).mpr (by decide)
  · obtain ⟨creds, hc⟩ :=
      (from_derived_key_length_guard toyCrypto (fun _ _ => rfl)).2 [5] [6]
    rw [hc]
    simp

/-- Claim C7: `hash_fn` is the hex of SHA-1 of the hex of SHA-512 of the
input, and `hash_password` is the concatenation of the SHA chain and the MD
chain of hex-encoded digests; both are deterministic functions of the input
alone, with no salt drawn anywhere. -/
theorem legacy_hash_chains (C : Crypto) (value password : List Nat) :
    hash_fn C value = bytesToHex (C.sha1 (bytesToHex (C.sha512 value)))
    ∧ hash_password C password =
        bytesToHex (C.sha512 (bytesToHex (C.sha384 (bytesToHex
          (C.sha256 (bytesToHex (C.sha1 password)))))))
        ++ bytesToHex (C.sha512 (bytesToHex (C.md5 (bytesToHex
          (C.md4 (bytesToHex (C.md2 password))))))) :=
  ⟨rfl, rfl⟩

/-- Claim C8: any blob whose first 8 bytes are `"U2FsdGVk"` (the leading
bytes of the base64 encoding of `"Salted__"`) is rejected with the
should-not-be-base64-encoded error before any decryption is attempted. -/
theorem decrypt_metadata_rejects_double_base64 (C : Crypto) (data key : List Nat)
    (h : data.take 8 = OPENSSL_SALTED_BASE64) :
    decrypt_metadata C data key = .err .shouldNotBeBase64 := by
  have h8 : 8 ≤ data.length := by
    have := congrArg List.length h
    simp [OPENSSL_SALTED_BASE64] at this
    omega
  have hne : data.take 8 ≠ OPENSSL_SALTED := by
    rw [h]; decide
  have hread : read_metadata_version data = .err .shouldNotBeBase64 := by
    simp only [read_metadata_version, OPENSSL_SALTED_len]
    rw [if_neg (by omega), if_neg hne, if_pos h]
  simp [decrypt_metadata, hread]

/-- Witness for C8: a concrete double-encoded blob. -/
theorem decrypt_metadata_rejects_double_base64_witness :
    decrypt_metadata toyCrypto [85, 50, 70, 115, 100, 71, 86, 107, 1, 2] [9]
      = .err .shouldNotBeBase64 :=
  decrypt_metadata_rejects_double_base64 toyCrypto _ [9] (by decide)

/-- Claim C9: a non-positive (i.e. zero, as the count is unsigned) iteration
count is replaced by 200 000, and any positive count is passed to PBKDF2
unchanged — no other clamping. -/
theorem derive_generic_iteration_default (salt : List Nat) (mac : List Nat → List Nat)
    (macOutputBytes dkLen : Nat) :
    derive_key_from_password_generic salt 0 mac macOutputBytes dkLen =
      derive_key_from_password_generic salt 200000 mac macOutputBytes dkLen
    ∧ ∀ iterations, 0 < iterations →
        derive_key_from_password_generic salt iterations mac macOutputBytes dkLen =
          pbkdf2 mac macOutputBytes salt iterations dkLen := by
  constructor
  · simp [derive_key_from_password_generic]
  · intro iterations hit
    simp only [derive_key_from_password_generic]
    rw [if_neg (by omega)]

/-- Witness for C9: the defaulting and the pass-through at concrete inputs. -/
theorem derive_generic_iteration_default_witness :
    derive_key_from_password_generic [1] 0 (toyCrypto.hmacSha512 [4]) 64 64 =
      derive_key_from_password_generic [1] 200000 (toyCrypto.hmacSha512 [4]) 64 64
    ∧ derive_key_from_password_generic [1] 5 (toyCrypto.hmacSha512 [4]) 64 64 =
      pbkdf2 (toyCrypto.hmacSha512 [4]) 64 [1] 5 64 :=
  ⟨(derive_generic_iteration_default [1] (toyCrypto.hmacSha512 [4]) 64 64).1,
    (derive_generic_iteration_default [1] (toyCrypto.hmacSha512 [4]) 64 64).2 5 (by decide)⟩

/-- Claim C10: the 32-byte PBKDF2-HMAC-SHA512 derivation is the first 32
bytes of the 64-byte derivation on the same inputs, and the version-2
metadata cipher key — derived inside `encrypt_aes_gcm` from the key `k` as
both password and salt at one iteration — is therefore the first half of
the 64-byte login derivation on those inputs. -/
theorem derive256_is_first_half_of_derive512 (C : Crypto) (password salt : List Nat)
    (iterations : Nat) :
    derive_key_from_password_256 C password salt iterations =
      (derive_key_from_password_512 C password salt iterations).take 32
    ∧ ∀ nonce data k, encrypt_aes_gcm C nonce data k =
        match C.gcmEncrypt ((derive_key_from_password_512 C k k 1).take 32) nonce data with
        | some encrypted => Except.ok (nonce ++ base64encode encrypted)
        | none => Except.error CryptoError.aesGcmDecipher := by
  have key : ∀ p s it, derive_key_from_password_256 C p s it =
      (derive_key_from_password_512 C p s it).take 32 := by
    intro p s it
    simp only [derive_key_from_password_256, derive_key_from_password_512,
      derive_key_from_password_generic, pbkdf2]
    norm_num
    rw [List.take_take]
    congr 1
  refine ⟨key password salt iterations, ?_⟩
  intro nonce data k
  simp only [encrypt_aes_gcm, key]
